import Mathlib

/-!
# Verification of the Machine Goddess repository's specification

Shallow embedding of the memory-store operations of `agents/airth_agent.py`
(`retrieve_relevant_memories`, `add_new_memory`) and of the SEO selection and
retry logic of `scripts/daily_news_automation.py`
(`generate_seo_optimized_news_content`, `fetch_articles_with_retry`, the
publishing loop of `run_daily_news_automation`), together with theorems
settling the frozen claims about them.

Strings model Python `str` values; an absent optional JSON field that the code
reads with `dict.get(key, "")` (or whose truthiness it tests) is modelled as
the empty string, which is observationally identical in every code path the
claims touch.  Python `float` arithmetic on scores is modelled with `ℚ`
(all scores involved are small dyadic-free rationals; the code's formulas are
`raw * priority / 5`).
-/

/-! ## Python string primitives -/

/-- Python `str.lower()` (ASCII-faithful): lower-case every character. -/
def pyLower (s : String) : String := ⟨s.data.map Char.toLower⟩

/-- Python `str.upper()` (ASCII-faithful). -/
def pyUpper (s : String) : String := ⟨s.data.map Char.toUpper⟩

/-- Python `needle in haystack` on strings: substring (contiguous) test. -/
def pyIn (needle haystack : String) : Bool :=
  decide (needle.data <:+: haystack.data)

/-- Python truthiness of a string: nonempty. -/
def pyTruthy (s : String) : Bool := !s.isEmpty

/-- Worker for `pySplit`: accumulate the current word (reversed) and cut at
whitespace, dropping empty fragments, exactly like Python `str.split()`. -/
def pySplitAux : List Char → List Char → List String
  | [], [] => []
  | [], acc => [⟨acc.reverse⟩]
  | c :: cs, acc =>
    if c.isWhitespace then
      if acc = [] then pySplitAux cs []
      else (⟨acc.reverse⟩ : String) :: pySplitAux cs []
    else pySplitAux cs (c :: acc)

/-- Python `str.split()` with no separator: split on whitespace runs,
discarding empty pieces. -/
def pySplit (s : String) : List String := pySplitAux s.data []

/-! ## Memory store model (`agents/airth_agent.py`) -/

/-- The `meta` block of a memory record; only `priority_level` is read by the
operations under verification (`.get("priority_level", 5)`). -/
structure MetaData where
  priority_level : Option ℚ
deriving DecidableEq, Repr

/-- A memory record as read by `retrieve_relevant_memories` and
`add_new_memory`.  Fields the code reads with a `""` default are plain
strings; fields the code tests for key-presence are `Option`s. -/
structure Memory where
  id : Option String
  title : String
  content : String
  associated_entities : List String
  emotional_signature : String
  timestamp : Option String
  meta : Option MetaData
deriving DecidableEq, Repr

/-- The memory store document: `self.memories` in `AirthAgent`. -/
structure MemoryStore where
  memories : List Memory
  last_updated : Option String
deriving DecidableEq, Repr

/-- `memory.get("meta", {}).get("priority_level", 5)`. -/
def getPriority (m : Memory) : ℚ :=
  match m.meta with
  | none => 5
  | some md => md.priority_level.getD 5

/-- `set(query.lower().split())`: the query's lower-cased whitespace tokens,
deduplicated (iteration order is irrelevant: every use is a sum over it). -/
def queryTerms (q : String) : List String := (pySplit (pyLower q)).dedup

/-- The per-term accumulation step of `retrieve_relevant_memories`:
`+2` content, `+3` title, `+2` any entity, `+1` emotional signature. -/
def termStep (m : Memory) (s : Nat) (term : String) : Nat :=
  let s1 := if pyIn term (pyLower m.content) then s + 2 else s
  let s2 := if pyIn term (pyLower m.title) then s1 + 3 else s1
  let s3 := if (m.associated_entities.map pyLower).any (fun e => pyIn term e)
            then s2 + 2 else s2
  if pyIn term (pyLower m.emotional_signature) then s3 + 1 else s3

/-- The raw (pre-priority) relevance score of a memory for a query. -/
def rawScore (q : String) (m : Memory) : Nat :=
  (queryTerms q).foldl (termStep m) 0

/-- The scaled relevance: `relevance_score *= (priority / 5)`. -/
def scaledScore (q : String) (m : Memory) : ℚ :=
  (rawScore q m : ℚ) * (getPriority m / 5)

/-- The candidate list built by `retrieve_relevant_memories`: each memory with
positive raw score, paired with its scaled relevance, in store order. -/
def scoredMemories (q : String) (mems : List Memory) : List (Memory × ℚ) :=
  mems.filterMap (fun m =>
    if 0 < rawScore q m then some (m, scaledScore q m) else none)

/-- The comparison used to model
`relevant_memories.sort(key=lambda x: x["relevance"], reverse=True)`:
descending by relevance. -/
def relDesc (a b : Memory × ℚ) : Bool := decide (b.2 ≤ a.2)

/-- The sorted candidate list of `retrieve_relevant_memories`. -/
def sortedCandidates (q : String) (mems : List Memory) : List (Memory × ℚ) :=
  (scoredMemories q mems).mergeSort relDesc

/-- `AirthAgent.retrieve_relevant_memories` (default `limit=3`): empty-store
guard, keyword scoring, priority scaling, descending sort, head slice. -/
def retrieve_relevant_memories (store : MemoryStore) (q : String)
    (limit : Nat := 3) : List Memory :=
  if store.memories.isEmpty then []
  else ((sortedCandidates q store.memories).take limit).map Prod.fst

/-! ## Memory insertion (`AirthAgent.add_new_memory`) -/

/-- Python `f"{n:03d}"`: decimal digits zero-padded to width 3. -/
def pad3 (n : Nat) : String :=
  if n < 10 then "00" ++ Nat.repr n
  else if n < 100 then "0" ++ Nat.repr n
  else Nat.repr n

/-- The candidate id generated from a running count: `f"mem{count+1:03d}"`. -/
def memIdOf (count : Nat) : String := "mem" ++ pad3 (count + 1)

/-- The `while new_id in existing_ids` probe of `add_new_memory`: starting
from `count`, bump the counter until the candidate id is unused.  Fuel makes
the recursion structural; `newMemoryId` supplies enough fuel that the
exhausted case is unreachable (see `newMemoryId_fresh`). -/
def probeId (existing : List String) : Nat → Nat → String
  | 0, c => memIdOf c
  | fuel + 1, c => if memIdOf c ∈ existing then probeId existing fuel (c + 1)
                   else memIdOf c

/-- The id `add_new_memory` generates for a record without one. -/
def newMemoryId (existing : List String) : String :=
  probeId existing (existing.length + 1) existing.length

/-- The default `meta` block `add_new_memory` installs when absent. -/
def defaultMeta : MetaData := ⟨some 5⟩

/-- The record as enriched by `add_new_memory` before the append: generated
`id` when absent, `timestamp` when absent, default `meta` when absent. -/
def enrichMemory (store : MemoryStore) (data : Memory) (now : String) : Memory :=
  let existing := store.memories.map (fun m => m.id.getD "")
  let data1 := match data.id with
               | none => { data with id := some (newMemoryId existing) }
               | some _ => data
  let data2 := match data1.timestamp with
               | none => { data1 with timestamp := some now }
               | some _ => data1
  match data2.meta with
  | none => { data2 with meta := some defaultMeta }
  | some _ => data2

/-- `AirthAgent.add_new_memory`: enrich, append, refresh `last_updated`, then
persist.  `saveOk` models whether the `json.dump` to disk succeeds; the
in-memory mutations happen before the dump, so they survive a failed save
(the `except` branch only logs and returns `False`). -/
def add_new_memory (store : MemoryStore) (data : Memory) (now : String)
    (saveOk : Bool) : Bool × MemoryStore :=
  let newStore : MemoryStore :=
    { memories := store.memories ++ [enrichMemory store data now]
      last_updated := some now }
  (saveOk, newStore)

/-! ## Daily news automation (`scripts/daily_news_automation.py`) -/

/-- A news article as consumed by `generate_seo_optimized_news_content`.
Every field is read with a `""` default or tested for truthiness, so absent
fields are modelled as `""`. -/
structure Article where
  title : String
  description : String
  content : String
  image_url : String
deriving DecidableEq, Repr

/-- `get_trending_tech_topics()`: the static trending-topic list. -/
def get_trending_tech_topics : List String :=
  ["artificial intelligence", "machine learning", "blockchain technology",
   "cybersecurity", "digital transformation", "metaverse",
   "augmented reality", "cryptocurrency", "sustainable tech",
   "5G technology", "quantum computing", "edge computing", "IoT",
   "robotics", "digital twins", "extended reality", "neural networks"]

/-- `get_geo_specific_keywords(country_code)`: the static geo table, keyed by
the upper-cased code, defaulting to `[country_code]`. -/
def get_geo_specific_keywords (country_code : String) : List String :=
  let u := pyUpper country_code
  if u = "US" then ["United States", "USA", "American", "U.S."]
  else if u = "UK" then ["United Kingdom", "Britain", "British", "UK"]
  else if u = "CA" then ["Canada", "Canadian"]
  else if u = "AU" then ["Australia", "Australian"]
  else if u = "IN" then ["India", "Indian"]
  else if u = "JP" then ["Japan", "Japanese"]
  else if u = "DE" then ["Germany", "German"]
  else if u = "FR" then ["France", "French"]
  else if u = "NZ" then ["New Zealand", "Kiwi"]
  else if u = "IT" then ["Italy", "Italian"]
  else if u = "ES" then ["Spain", "Spanish"]
  else if u = "BR" then ["Brazil", "Brazilian"]
  else [country_code]

/-- The trending-topic accumulation step of the SEO scoring loop: `+5` when
the topic occurs in the (lowered) title `t`, `+3` in the description `d`. -/
def topicStep (t d : String) (s : Nat) (topic : String) : Nat :=
  let x := if pyIn (pyLower topic) t then s + 5 else s
  if pyIn (pyLower topic) d then x + 3 else x

/-- The geo-keyword accumulation step: `+4` title, `+2` description. -/
def geoStep (t d : String) (s : Nat) (kw : String) : Nat :=
  let x := if pyIn (pyLower kw) t then s + 4 else s
  if pyIn (pyLower kw) d then x + 2 else x

/-- The score after the trending-topic loop of
`generate_seo_optimized_news_content`. -/
def seoBase (a : Article) : Nat :=
  get_trending_tech_topics.foldl
    (topicStep (pyLower a.title) (pyLower a.description)) 0

/-- The score after the optional geo-keyword loop (`if geo_target:`). -/
def seoWithGeo (a : Article) (geo_target : Option String) : Nat :=
  match geo_target with
  | some g =>
    if pyTruthy g then
      (get_geo_specific_keywords g).foldl
        (geoStep (pyLower a.title) (pyLower a.description)) (seoBase a)
    else seoBase a
  | none => seoBase a

/-- The SEO score assigned to one (valid) article by
`generate_seo_optimized_news_content`, accumulated in the code's order:
trending topics (+5 title / +3 description), geo keywords when the target is
truthy (+4 / +2), ideal title length (+2), featured image (+3), then the
content-length band (+5 / +3 / +1).  `len(article_title)` is the length of
the lower-cased title, exactly as in the code. -/
def seoScore (a : Article) (geo_target : Option String) : Nat :=
  let s2 := seoWithGeo a geo_target
  let s3 := if 30 ≤ (pyLower a.title).length ∧ (pyLower a.title).length ≤ 60
            then s2 + 2 else s2
  let s4 := if pyTruthy a.image_url then s3 + 3 else s3
  let content_length :=
    (if pyTruthy a.content then a.content else a.description).length
  if 1500 < content_length then s4 + 5
  else if 800 < content_length then s4 + 3
  else if 400 < content_length then s4 + 1
  else s4

/-- The validity filter of `generate_seo_optimized_news_content`:
`article.get("title") and article.get("description")`. -/
def validArticle (a : Article) : Bool := pyTruthy a.title && pyTruthy a.description

/-- `scored_articles.sort(reverse=True, key=lambda x: x[0])`: descending by
score. -/
def scoreDesc (a b : Nat × Article) : Bool := decide (b.1 ≤ a.1)

/-- The sorted scored-candidate list built from the valid articles. -/
def sortedScoredArticles (articles : List Article) (geo_target : Option String) :
    List (Nat × Article) :=
  ((articles.filter validArticle).map (fun a => (seoScore a geo_target, a))).mergeSort
    scoreDesc

/-- `generate_seo_optimized_news_content`: guard on empty input, filter valid
articles (falling back to `articles[0]` when none), score, sort descending,
return the best, with the code's terminal fallback mirrored verbatim. -/
def generate_seo_optimized_news_content (articles : List Article)
    (geo_target : Option String) : Option Article :=
  match articles with
  | [] => none
  | a0 :: _ =>
    let valid := articles.filter validArticle
    if valid.isEmpty then some a0
    else
      match sortedScoredArticles articles geo_target with
      | best :: _ => some best.2
      | [] => match valid with
              | v :: _ => some v
              | [] => some a0

/-! ## Retry loops -/

/-- `MAX_RETRIES` of `daily_news_automation.py`. -/
def MAX_RETRIES : Nat := 3

/-- One simulated run of the `while attempts < MAX_RETRIES` loop of
`fetch_articles_with_retry`.  `outcome i` is what the `i`-th call to
`airth.fetch_news` produces, with an exception modelled as `[]` (both paths
increment `attempts` and sleep).  Returns the fetched articles together with
the number of calls made. -/
def fetchGo (outcome : Nat → List Article) (calls : Nat) :
    Nat → List Article × Nat
  | 0 => ([], calls)
  | rem + 1 =>
    let r := outcome calls
    if r.isEmpty then fetchGo outcome (calls + 1) rem else (r, calls + 1)

/-- `fetch_articles_with_retry` as a call-counting process. -/
def fetch_articles_with_retry (outcome : Nat → List Article) :
    List Article × Nat :=
  fetchGo outcome 0 MAX_RETRIES

/-- One simulated run of the posting loop of `run_daily_news_automation`
(`while not post_success and attempts < MAX_RETRIES`).  `outcome i` tells
whether the `i`-th call to `airth.create_news_commentary_post` reports
success (an exception counts as failure).  Returns the final `post_success`
flag and the number of calls made. -/
def postGo (outcome : Nat → Bool) (calls : Nat) : Nat → Bool × Nat
  | 0 => (false, calls)
  | rem + 1 =>
    if outcome calls then (true, calls + 1) else postGo outcome (calls + 1) rem

/-- The publishing phase of `run_daily_news_automation` as a call-counting
process. -/
def publishLoop (outcome : Nat → Bool) : Bool × Nat :=
  postGo outcome 0 MAX_RETRIES

/-! ## Helper lemmas: decimal representations -/

/-- Big-endian decimal parser (proof device, used to invert `Nat.repr`). -/
def parseDigits (l : List Char) : Nat :=
  l.foldl (fun a c => a * 10 + (c.toNat - '0'.toNat)) 0

lemma digitChar_val (d : Nat) (h : d < 10) :
    (Nat.digitChar d).toNat - '0'.toNat = d := by
  interval_cases d <;> rfl

lemma toDigitsCore_eq (f : Nat) : ∀ (n : Nat) (acc : List Char), 0 < n → n < 10 ^ f →
    Nat.toDigitsCore 10 f n acc = ((Nat.digits 10 n).map Nat.digitChar).reverse ++ acc := by
  induction f with
  | zero => intro n acc h0 h; simp at h; omega
  | succ f ih =>
    intro n acc h0 h
    rw [Nat.digits_def' (by norm_num : (1:Nat) < 10) h0]
    by_cases hd : n / 10 = 0
    · have : Nat.digits 10 (n / 10) = [] := by rw [hd]; simp
      simp [Nat.toDigitsCore, hd, this]
    · have h10 : n / 10 < 10 ^ f :=
        Nat.div_lt_of_lt_mul (by calc n < 10 ^ (f + 1) := h
                                   _ = 10 * 10 ^ f := by ring)
      have hrec := ih (n / 10) (Nat.digitChar (n % 10) :: acc) (Nat.pos_of_ne_zero hd) h10
      simp only [Nat.toDigitsCore, hd, if_false]
      rw [hrec]
      simp

lemma repr_data_eq (n : Nat) (h : 0 < n) :
    (Nat.repr n).data = ((Nat.digits 10 n).map Nat.digitChar).reverse := by
  have hlt : n < 10 ^ (n + 1) := by
    calc n < 2 ^ n := Nat.lt_two_pow n
      _ ≤ 10 ^ n := Nat.pow_le_pow_left (by norm_num) n
      _ < 10 ^ (n + 1) := Nat.pow_lt_pow_succ (by norm_num)
  show (Nat.toDigits 10 n).asString.data = _
  rw [show Nat.toDigits 10 n = Nat.toDigitsCore 10 (n + 1) n [] from rfl,
    toDigitsCore_eq (n + 1) n [] h hlt]
  simp [List.asString]

lemma parse_rev_digits (l : List Nat) (hl : ∀ d ∈ l, d < 10) : ∀ (a : Nat),
    List.foldl (fun a c => a * 10 + (c.toNat - '0'.toNat)) a
      ((l.map Nat.digitChar).reverse) = a * 10 ^ l.length + Nat.ofDigits 10 l := by
  induction l with
  | nil => intro a; simp [Nat.ofDigits]
  | cons x xs ih =>
    intro a
    have hx : x < 10 := hl x (by simp)
    have hxs : ∀ d ∈ xs, d < 10 := fun d hd => hl d (by simp [hd])
    simp only [List.map_cons, List.reverse_cons, List.foldl_append, List.foldl_cons,
      List.foldl_nil, ih hxs a, digitChar_val x hx, List.length_cons]
    rw [show Nat.ofDigits 10 (x :: xs) = x + 10 * Nat.ofDigits 10 xs by
      simp [Nat.ofDigits]]
    ring

lemma parse_repr (n : Nat) : parseDigits (Nat.repr n).data = n := by
  rcases Nat.eq_zero_or_pos n with rfl | h
  · rfl
  · rw [parseDigits, repr_data_eq n h,
      parse_rev_digits (Nat.digits 10 n) (fun d hd => Nat.digits_lt_base (by norm_num) hd) 0]
    simp [Nat.ofDigits_digits]

lemma parse_cons_zero (l : List Char) : parseDigits ('0' :: l) = parseDigits l := rfl

lemma parse_pad3 (n : Nat) : parseDigits (pad3 n).data = n := by
  unfold pad3
  split_ifs with h1 h2
  · rw [show ("00" ++ Nat.repr n).data = '0' :: '0' :: (Nat.repr n).data from rfl,
      parse_cons_zero, parse_cons_zero, parse_repr]
  · rw [show ("0" ++ Nat.repr n).data = '0' :: (Nat.repr n).data from rfl,
      parse_cons_zero, parse_repr]
  · exact parse_repr n

lemma pad3_inj : Function.Injective pad3 := by
  intro a b h
  have := congrArg (fun s : String => parseDigits s.data) h
  simpa [parse_pad3] using this

lemma memIdOf_inj : Function.Injective memIdOf := by
  intro a b h
  have hd : ('m' :: 'e' :: 'm' :: (pad3 (a + 1)).data)
      = ('m' :: 'e' :: 'm' :: (pad3 (b + 1)).data) := by
    have := congrArg String.data h
    simpa [memIdOf, String.data] using this
  have : (pad3 (a + 1)).data = (pad3 (b + 1)).data := by
    injection hd with _ hd1; injection hd1 with _ hd2; injection hd2
  have : pad3 (a + 1) = pad3 (b + 1) := by
    cases hpa : pad3 (a + 1); cases hpb : pad3 (b + 1)
    simp_all
  have := pad3_inj this
  omega

/-! ## Helper lemmas: the id probe -/

lemma probeId_not_mem (existing : List String) :
    ∀ (fuel c : Nat), (∃ j, j < fuel ∧ memIdOf (c + j) ∉ existing) →
      probeId existing fuel c ∉ existing := by
  intro fuel
  induction fuel with
  | zero => intro c h; obtain ⟨j, hj, _⟩ := h; omega
  | succ fuel ih =>
    intro c h
    obtain ⟨j, hj, hfresh⟩ := h
    by_cases hc : memIdOf c ∈ existing
    · have hj0 : j ≠ 0 := by rintro rfl; simp at hfresh; exact hfresh hc
      simp only [probeId, hc, if_true]
      refine ih (c + 1) ⟨j - 1, by omega, ?_⟩
      have : c + 1 + (j - 1) = c + j := by omega
      rw [this]; exact hfresh
    · simp [probeId, hc]

lemma exists_fresh (existing : List String) (c : Nat) :
    ∃ j, j < existing.length + 1 ∧ memIdOf (c + j) ∉ existing := by
  by_contra hcon
  push_neg at hcon
  have hsub : ((List.range (existing.length + 1)).map (fun j => memIdOf (c + j)))
      ⊆ existing := by
    intro x hx
    simp only [List.mem_map, List.mem_range] at hx
    obtain ⟨j, hj, rfl⟩ := hx
    exact hcon j hj
  have hnd : ((List.range (existing.length + 1)).map (fun j => memIdOf (c + j))).Nodup := by
    refine List.Nodup.map ?_ (List.nodup_range _)
    intro a b hab
    have := memIdOf_inj hab
    omega
  have hle := (List.subperm_of_subset hnd hsub).length_le
  simp at hle

/-- The id generated by `add_new_memory` never collides with an existing id. -/
theorem newMemoryId_fresh (existing : List String) : newMemoryId existing ∉ existing :=
  probeId_not_mem existing _ _ (exists_fresh existing existing.length)

lemma newMemoryId_no_collision (existing : List String)
    (h : memIdOf existing.length ∉ existing) :
    newMemoryId existing = memIdOf existing.length := by
  show probeId existing (existing.length + 1) existing.length = _
  simp [probeId, h]

/-! ## Helper lemmas: folds and sums -/

lemma foldl_add_eq {α : Type} (f : α → Nat) : ∀ (l : List α) (a : Nat),
    l.foldl (fun s x => s + f x) a = a + (l.map f).sum := by
  intro l
  induction l with
  | nil => simp
  | cons x xs ih => intro a; simp only [List.foldl_cons, List.map_cons, List.sum_cons, ih]; omega

lemma filterMap_ite {α β : Type} (l : List α) (p : α → Prop) [DecidablePred p] (f : α → β) :
    l.filterMap (fun x => if p x then some (f x) else none) =
      (l.filter (fun x => decide (p x))).map f := by
  induction l with
  | nil => rfl
  | cons x xs ih => by_cases hx : p x <;> simp [hx, ih]

lemma ite_add_shift (c : Prop) [Decidable c] (X k : Nat) :
    (if c then X + k else X) = X + (if c then k else 0) := by
  split <;> omega

/-! ## Relevance scoring: spec-side formula and bridge lemmas -/

/-- The per-term award exactly as the spec words it: `+2` when the term is a
substring of the lower-cased content, `+3` of the title, `+2` (once, however
many entities match) of any associated entity, `+1` of the emotional
signature. -/
def termAward (m : Memory) (term : String) : Nat :=
  (if pyIn term (pyLower m.content) then 2 else 0) +
  (if pyIn term (pyLower m.title) then 3 else 0) +
  (if (m.associated_entities.map pyLower).any (fun e => pyIn term e) then 2 else 0) +
  (if pyIn term (pyLower m.emotional_signature) then 1 else 0)

lemma termStep_eq (m : Memory) (s : Nat) (term : String) :
    termStep m s term = s + termAward m term := by
  simp only [termStep, termAward]
  split_ifs <;> omega

lemma rawScore_eq_sum (q : String) (m : Memory) :
    rawScore q m = ((queryTerms q).map (termAward m)).sum := by
  unfold rawScore
  rw [show termStep m = fun s x => s + termAward m x from
    funext fun s => funext fun x => termStep_eq m s x]
  rw [foldl_add_eq]
  omega

lemma scoredMemories_eq (q : String) (mems : List Memory) :
    scoredMemories q mems =
      (mems.filter (fun m => decide (0 < rawScore q m))).map
        (fun m => (m, scaledScore q m)) := by
  unfold scoredMemories
  exact filterMap_ite mems (fun m => 0 < rawScore q m) (fun m => (m, scaledScore q m))

/-! ## SEO scoring: spec-side formula and bridge lemmas -/

/-- Spec-side: the total trending-topic bonus, `+5` per topic that is a
substring of the lower-cased title and `+3` per topic in the lower-cased
description. -/
def trendBonus (a : Article) : Nat :=
  (get_trending_tech_topics.map (fun topic =>
    (if pyIn (pyLower topic) (pyLower a.title) then 5 else 0) +
    (if pyIn (pyLower topic) (pyLower a.description) then 3 else 0))).sum

/-- Spec-side: the total geo bonus, `+4` per geo keyword in the title and
`+2` per geo keyword in the description, only when a geo-target is given. -/
def geoBonus (a : Article) (geo_target : Option String) : Nat :=
  match geo_target with
  | some g =>
    if pyTruthy g then
      ((get_geo_specific_keywords g).map (fun kw =>
        (if pyIn (pyLower kw) (pyLower a.title) then 4 else 0) +
        (if pyIn (pyLower kw) (pyLower a.description) then 2 else 0))).sum
    else 0
  | none => 0

/-- Spec-side: the single content-length band bonus, computed on the content
if present else the description: `+5` above 1500, else `+3` above 800, else
`+1` above 400, else `+0`. -/
def bandBonus (a : Article) : Nat :=
  if 1500 < (if pyTruthy a.content then a.content else a.description).length then 5
  else if 800 < (if pyTruthy a.content then a.content else a.description).length then 3
  else if 400 < (if pyTruthy a.content then a.content else a.description).length then 1
  else 0

/-- The SEO score exactly as the spec words it: trending bonus, plus geo
bonus when a geo-target is given, plus `+2` iff the title length lies in
[30,60], plus `+3` iff an image URL is present, plus exactly one
content-length band bonus. -/
def seoScoreSpec (a : Article) (geo_target : Option String) : Nat :=
  trendBonus a + geoBonus a geo_target +
  (if 30 ≤ a.title.length ∧ a.title.length ≤ 60 then 2 else 0) +
  (if pyTruthy a.image_url then 3 else 0) +
  bandBonus a

lemma pyLower_length (s : String) : (pyLower s).length = s.length := by
  show (s.data.map Char.toLower).length = s.data.length
  exact List.length_map s.data Char.toLower

lemma topicStep_eq (t d : String) (s : Nat) (topic : String) :
    topicStep t d s topic = s +
      ((if pyIn (pyLower topic) t then 5 else 0) +
       (if pyIn (pyLower topic) d then 3 else 0)) := by
  simp only [topicStep]
  split_ifs <;> omega

lemma geoStep_eq (t d : String) (s : Nat) (kw : String) :
    geoStep t d s kw = s +
      ((if pyIn (pyLower kw) t then 4 else 0) +
       (if pyIn (pyLower kw) d then 2 else 0)) := by
  simp only [geoStep]
  split_ifs <;> omega

lemma foldl_topicStep (t d : String) (l : List String) (a : Nat) :
    l.foldl (topicStep t d) a = a + (l.map (fun topic =>
      (if pyIn (pyLower topic) t then 5 else 0) +
      (if pyIn (pyLower topic) d then 3 else 0))).sum := by
  rw [show topicStep t d = fun s x => s +
      ((if pyIn (pyLower x) t then 5 else 0) +
       (if pyIn (pyLower x) d then 3 else 0)) from
    funext fun s => funext fun x => topicStep_eq t d s x]
  exact foldl_add_eq _ l a

lemma foldl_geoStep (t d : String) (l : List String) (a : Nat) :
    l.foldl (geoStep t d) a = a + (l.map (fun kw =>
      (if pyIn (pyLower kw) t then 4 else 0) +
      (if pyIn (pyLower kw) d then 2 else 0))).sum := by
  rw [show geoStep t d = fun s x => s +
      ((if pyIn (pyLower x) t then 4 else 0) +
       (if pyIn (pyLower x) d then 2 else 0)) from
    funext fun s => funext fun x => geoStep_eq t d s x]
  exact foldl_add_eq _ l a

lemma seoBase_eq (a : Article) : seoBase a = trendBonus a := by
  rw [seoBase, foldl_topicStep, trendBonus]
  omega

lemma seoWithGeo_eq (a : Article) (geo_target : Option String) :
    seoWithGeo a geo_target = trendBonus a + geoBonus a geo_target := by
  cases geo_target with
  | none => rw [seoWithGeo, geoBonus, seoBase_eq]; omega
  | some g =>
    by_cases hg : pyTruthy g = true
    · rw [seoWithGeo, geoBonus, if_pos hg, if_pos hg, foldl_geoStep, seoBase_eq]
    · rw [seoWithGeo, geoBonus, if_neg hg, if_neg hg, seoBase_eq]; omega

lemma band_shift (c1 c2 c3 : Prop) [Decidable c1] [Decidable c2] [Decidable c3]
    (Y : Nat) :
    (if c1 then Y + 5 else if c2 then Y + 3 else if c3 then Y + 1 else Y)
      = Y + (if c1 then 5 else if c2 then 3 else if c3 then 1 else 0) := by
  split_ifs <;> omega

lemma seoScore_eq_spec (a : Article) (geo_target : Option String) :
    seoScore a geo_target = seoScoreSpec a geo_target := by
  rw [seoScore, seoScoreSpec, bandBonus, seoWithGeo_eq]
  simp only [pyLower_length]
  rw [ite_add_shift, ite_add_shift, band_shift]

/-! ## Sorting and retrieval lemmas -/

lemma sortedCandidates_pairwise (q : String) (mems : List Memory) :
    (sortedCandidates q mems).Pairwise (fun a b => b.2 ≤ a.2) := by
  have h : (sortedCandidates q mems).Pairwise (fun a b => relDesc a b = true) := by
    apply List.sorted_mergeSort
    · intro a b c h1 h2
      simp only [relDesc, decide_eq_true_eq] at *
      exact le_trans h2 h1
    · intro a b
      simp only [relDesc, Bool.or_eq_true, decide_eq_true_eq]
      exact le_total b.2 a.2
  exact h.imp (fun hab => by simpa [relDesc] using hab)

lemma retrieve_eq_map_take (store : MemoryStore) (q : String) (limit : Nat)
    (h : store.memories ≠ []) :
    retrieve_relevant_memories store q limit
      = ((sortedCandidates q store.memories).take limit).map Prod.fst := by
  rw [retrieve_relevant_memories, if_neg]
  simp [List.isEmpty_iff, h]

lemma scoredMemories_eq_nil (q : String) (mems : List Memory)
    (h : ∀ m ∈ mems, rawScore q m = 0) : scoredMemories q mems = [] := by
  rw [scoredMemories, List.filterMap_eq_nil_iff]
  intro m hm
  simp [h m hm]

/-! ## Selection lemmas for `generate_seo_optimized_news_content` -/

lemma sortedScoredArticles_length (articles : List Article) (geo : Option String) :
    (sortedScoredArticles articles geo).length = (articles.filter validArticle).length := by
  rw [sortedScoredArticles, List.length_mergeSort, List.length_map]

lemma sortedScoredArticles_ne_nil (articles : List Article) (geo : Option String)
    (hv : articles.filter validArticle ≠ []) :
    sortedScoredArticles articles geo ≠ [] := by
  intro hnil
  have := sortedScoredArticles_length articles geo
  rw [hnil] at this
  exact hv (List.length_eq_zero.mp this.symm)

lemma mem_of_mem_sortedScoredArticles (articles : List Article) (geo : Option String)
    (p : Nat × Article) (hp : p ∈ sortedScoredArticles articles geo) :
    p.2 ∈ articles.filter validArticle := by
  rw [sortedScoredArticles, List.mem_mergeSort, List.mem_map] at hp
  obtain ⟨x, hx, rfl⟩ := hp
  exact hx

lemma generate_eq_of_valid (articles : List Article) (geo : Option String)
    (hv : articles.filter validArticle ≠ []) :
    ∀ a : Article, generate_seo_optimized_news_content articles geo = some a →
      a ∈ articles.filter validArticle := by
  intro a ha
  cases articles with
  | nil => simp at hv
  | cons a0 rest =>
    rw [generate_seo_optimized_news_content] at ha
    have hfe : ((a0 :: rest).filter validArticle).isEmpty = false := by
      rw [List.isEmpty_eq_false_iff_exists_mem]
      cases hx : (a0 :: rest).filter validArticle with
      | nil => exact absurd hx hv
      | cons y t => exact ⟨y, List.mem_cons_self y t⟩
    rw [hfe] at ha
    simp only [Bool.false_eq_true, if_false] at ha
    cases hs : sortedScoredArticles (a0 :: rest) geo with
    | nil => exact absurd hs (sortedScoredArticles_ne_nil _ _ hv)
    | cons b t =>
      rw [hs] at ha
      have hb : b ∈ sortedScoredArticles (a0 :: rest) geo := by
        rw [hs]; exact List.mem_cons_self b t
      have := mem_of_mem_sortedScoredArticles _ _ b hb
      simp only [Option.some_inj] at ha
      rw [← ha]
      exact this

lemma generate_isSome (articles : List Article) (geo : Option String)
    (h : articles ≠ []) :
    ∃ a, generate_seo_optimized_news_content articles geo = some a := by
  cases articles with
  | nil => exact absurd rfl h
  | cons a0 rest =>
    rw [generate_seo_optimized_news_content]
    by_cases hfe : ((a0 :: rest).filter validArticle).isEmpty = true
    · rw [hfe]; exact ⟨a0, rfl⟩
    · rw [Bool.not_eq_true] at hfe
      rw [hfe]
      simp only [Bool.false_eq_true, if_false]
      cases hs : sortedScoredArticles (a0 :: rest) geo with
      | nil =>
        exfalso
        refine sortedScoredArticles_ne_nil (a0 :: rest) geo ?_ hs
        intro hnil
        rw [hnil] at hfe
        simp at hfe
      | cons b t => exact ⟨b.2, rfl⟩

/-! ## Concrete fixtures -/

/-- A minimal memory record carrying only an id. -/
def mkMem (i : String) : Memory := ⟨some i, "", "", [], "", none, none⟩

/-- A record submitted without any optional field set. -/
def blankMem : Memory := ⟨none, "", "", [], "", none, none⟩

/-- The record of worked example 1 of the spec: title
"AI Consciousness Musings", content "musings on AI", entities ["Airth"],
empty emotional signature, priority 8. -/
def musingsMem : Memory :=
  ⟨some "mem001", "AI Consciousness Musings", "musings on AI", ["Airth"], "",
   none, some ⟨some 8⟩⟩

/-- A store holding exactly the worked-example record. -/
def musingsStore : MemoryStore := ⟨[musingsMem], none⟩

/-- A store holding exactly `mem001` .. `mem005`. -/
def store5 : MemoryStore :=
  ⟨[mkMem "mem001", mkMem "mem002", mkMem "mem003", mkMem "mem004",
    mkMem "mem005"], none⟩

/-- An article with a title but no description (invalid for scoring). -/
def invalidArticle : Article := ⟨"AI", "", "", ""⟩

/-- An article with both a title and a description (valid for scoring). -/
def goodArticle : Article := ⟨"AI", "news", "", ""⟩

/-- A valid article hitting two trending topics in the title (+10), one in
the description (+3), and the ideal title length (+2). -/
def seoWitnessArticle : Article :=
  ⟨"Quantum computing and machine learning advances", "A study of robotics",
   "", ""⟩

/-! ## Supporting lemmas for the insertion claims -/

lemma enrich_id_of_none (store : MemoryStore) (data : Memory) (now : String)
    (h : data.id = none) :
    (enrichMemory store data now).id
      = some (newMemoryId (store.memories.map (fun m => m.id.getD ""))) := by
  simp only [enrichMemory, h]
  cases data.timestamp <;> cases data.meta <;> simp

lemma add_preserves_old (store : MemoryStore) (data : Memory) (now : String)
    (saveOk : Bool) :
    (add_new_memory store data now saveOk).2.memories.take store.memories.length
      = store.memories := by
  simp [add_new_memory, List.take_left]

lemma add_nodup_of_none (store : MemoryStore) (data : Memory) (now : String)
    (saveOk : Bool) (hid : data.id = none)
    (hnd : (store.memories.map (fun m => m.id.getD "")).Nodup) :
    ((add_new_memory store data now saveOk).2.memories.map
      (fun m => m.id.getD "")).Nodup := by
  have hfresh := newMemoryId_fresh (store.memories.map (fun m => m.id.getD ""))
  have hidval : (enrichMemory store data now).id.getD ""
      = newMemoryId (store.memories.map (fun m => m.id.getD "")) := by
    rw [enrich_id_of_none store data now hid]
    rfl
  simp only [add_new_memory, List.map_append, List.map_cons, List.map_nil,
    List.nodup_append]
  refine ⟨hnd, by simp, ?_⟩
  intro x hx
  simp only [List.mem_singleton, hidval]
  intro heq
  rw [heq] at hx
  exact hfresh hx

/-! ## Supporting lemmas for the retry and selection claims -/

lemma postGo_calls_le (outcome : Nat → Bool) :
    ∀ (rem calls : Nat), (postGo outcome calls rem).2 ≤ calls + rem := by
  intro rem
  induction rem with
  | zero => intro calls; simp [postGo]
  | succ rem ih =>
    intro calls
    rw [postGo]
    by_cases h : outcome calls = true
    · simp [h]
    · simp only [h, Bool.false_eq_true, if_false]
      have := ih (calls + 1)
      omega

lemma fetchGo_calls_le (outcome : Nat → List Article) :
    ∀ (rem calls : Nat), (fetchGo outcome calls rem).2 ≤ calls + rem := by
  intro rem
  induction rem with
  | zero => intro calls; simp [fetchGo]
  | succ rem ih =>
    intro calls
    rw [fetchGo]
    by_cases h : (outcome calls).isEmpty = true
    · simp only [h, if_true]
      have := ih (calls + 1)
      omega
    · simp [h]

lemma publishLoop_all_fail (outcome : Nat → Bool)
    (h : ∀ i, i < MAX_RETRIES → outcome i = false) :
    publishLoop outcome = (false, MAX_RETRIES) := by
  have h0 := h 0 (by decide)
  have h1 := h 1 (by decide)
  have h2 := h 2 (by decide)
  show postGo outcome 0 3 = (false, 3)
  rw [postGo, h0]
  simp only [Bool.false_eq_true, if_false]
  rw [postGo, h1]
  simp only [Bool.false_eq_true, if_false]
  rw [postGo, h2]
  simp only [Bool.false_eq_true, if_false]
  rfl

lemma publishLoop_first_success (outcome : Nat → Bool) (h : outcome 0 = true) :
    publishLoop outcome = (true, 1) := by
  show postGo outcome 0 3 = (true, 1)
  rw [postGo, h]
  rfl

lemma generate_single (a : Article) (geo : Option String)
    (hva : validArticle a = true) :
    generate_seo_optimized_news_content [a] geo = some a := by
  have hfil : [a].filter validArticle = [a] := by
    rw [List.filter_cons_of_pos hva, List.filter_nil]
  rw [generate_seo_optimized_news_content]
  rw [hfil]
  simp only [List.isEmpty_cons, Bool.false_eq_true, if_false]
  rw [sortedScoredArticles, hfil, List.map_cons, List.map_nil,
    List.mergeSort_singleton]

/-! ## Claim theorems -/

/-- C1: for every query and memory collection, the candidate list built by
`retrieve_relevant_memories` consists exactly of the records with positive
raw score — a record with raw score 0 is omitted entirely — each paired with
its raw score multiplied by `priority_level / 5`; the raw score is the sum,
over the set of lower-cased whitespace-delimited query terms, of the
per-term awards (+2 content, +3 title, +2 once per term for any matching
entity, +1 emotional signature); and a record without a `meta` block gets
the default priority 5. -/
theorem c1_relevance_scoring (q : String) (mems : List Memory) :
    scoredMemories q mems =
      (mems.filter (fun m => decide (0 < rawScore q m))).map
        (fun m => (m, (rawScore q m : ℚ) * (getPriority m / 5))) ∧
    (∀ m : Memory, rawScore q m = ((queryTerms q).map (termAward m)).sum) ∧
    (∀ m : Memory, m.meta = none → getPriority m = 5) := by
  refine ⟨?_, fun m => rawScore_eq_sum q m, fun m hm => by simp [getPriority, hm]⟩
  rw [scoredMemories_eq]
  simp only [scaledScore]

/-- C1 witness: the formula evaluated at the concrete one-record store of the
spec's worked example, with the implication about a missing `meta` block
discharged on `blankMem`. -/
theorem c1_witness :
    scoredMemories "AI consciousness" [musingsMem] =
      [(musingsMem, (rawScore "AI consciousness" musingsMem : ℚ) *
        (getPriority musingsMem / 5))] ∧
    getPriority blankMem = 5 := by
  have h := c1_relevance_scoring "AI consciousness" [musingsMem]
  refine ⟨?_, h.2.2 blankMem rfl⟩
  rw [h.1, List.filter_cons_of_pos (by decide), List.filter_nil,
    List.map_cons, List.map_nil]

/-- C2: for every article with non-empty title and description and any
optional geo-target, the code's SEO score equals the spec's formula: +5/+3
per trending topic in lower-cased title/description, +4/+2 per geo keyword
when a geo-target is given, +2 iff the title length lies in [30,60]
inclusive, +3 iff an image URL is present, and exactly one content-length
band bonus (+5 over 1500, else +3 over 800, else +1 over 400, else +0)
computed on the content if present else the description. -/
theorem c2_seo_formula (a : Article) (geo : Option String)
    (h1 : pyTruthy a.title = true) (h2 : pyTruthy a.description = true) :
    seoScore a geo = seoScoreSpec a geo :=
  seoScore_eq_spec a geo

/-- C2 witness: the formula at a concrete article (two trending topics in
the title, one in the description, ideal title length), score 15. -/
theorem c2_witness :
    pyTruthy seoWitnessArticle.title = true ∧
    pyTruthy seoWitnessArticle.description = true ∧
    seoScore seoWitnessArticle none = seoScoreSpec seoWitnessArticle none ∧
    seoScore seoWitnessArticle none = 15 :=
  ⟨by decide, by decide,
   c2_seo_formula seoWitnessArticle none (by decide) (by decide), by decide⟩

/-- C3 counterexample: when every input article is invalid, the function
falls back to `articles[0]` — here an article with an empty description is
returned as the selected result, so "never returned" fails as stated. -/
theorem c3_counterexample :
    validArticle invalidArticle = false ∧
    generate_seo_optimized_news_content [invalidArticle] none
      = some invalidArticle := by
  exact ⟨by decide, by decide⟩

/-- C3 (amended): provided at least one input article has both a title and a
description, an article lacking either is excluded from scoring and is never
the selected result; only when no article is valid does the function fall
back to returning `articles[0]` unscored. -/
theorem c3_amended (articles : List Article) (geo : Option String) (a : Article)
    (hv : articles.filter validArticle ≠ [])
    (ha : generate_seo_optimized_news_content articles geo = some a) :
    validArticle a = true := by
  have hmem := generate_eq_of_valid articles geo hv a ha
  exact (List.mem_filter.mp hmem).2

/-- C3 witness: with one valid article present the selected article is
valid. -/
theorem c3_witness : validArticle goodArticle = true :=
  c3_amended [goodArticle] none goodArticle (by decide)
    (generate_single goodArticle none (by decide))

/-- C4 counterexample: on a failed persist, `add_new_memory` reports failure
but the in-memory collection is NOT the same as before the call — the
appended record survives, so the operation is not all-or-nothing. -/
theorem c4_counterexample :
    (add_new_memory ⟨[], none⟩ blankMem "t" false).1 = false ∧
    (add_new_memory ⟨[], none⟩ blankMem "t" false).2.memories
      ≠ (⟨[], none⟩ : MemoryStore).memories := by
  exact ⟨rfl, by decide⟩

/-- C4 (amended): on a failed persist the operation returns failure, yet the
in-memory collection retains the appended (enriched) record — the append is
performed before serialization and is not rolled back. -/
theorem c4_no_rollback (store : MemoryStore) (data : Memory) (now : String) :
    (add_new_memory store data now false).1 = false ∧
    (add_new_memory store data now false).2.memories
      = store.memories ++ [enrichMemory store data now] ∧
    (add_new_memory store data now false).2.memories ≠ store.memories := by
  refine ⟨rfl, rfl, ?_⟩
  intro h
  have hlen := congrArg List.length h
  simp only [add_new_memory, List.length_append, List.length_cons,
    List.length_nil] at hlen
  omega

/-- C5: a record inserted without an explicit id receives the generated id
`"mem" ++ pad3(count+1)` (count = current number of records), probed upward
past any collision until fresh; in particular inserting into a store holding
exactly mem001..mem005 assigns mem006. -/
theorem c5_id_assignment :
    (∀ (store : MemoryStore) (data : Memory) (now : String),
      data.id = none →
      (enrichMemory store data now).id
        = some (newMemoryId (store.memories.map (fun m => m.id.getD "")))) ∧
    (∀ existing : List String, memIdOf existing.length ∉ existing →
      newMemoryId existing = memIdOf existing.length) ∧
    (∀ existing : List String, newMemoryId existing ∉ existing) ∧
    ((add_new_memory store5 blankMem "t" true).2.memories.map (fun m => m.id)
      = [some "mem001", some "mem002", some "mem003", some "mem004",
         some "mem005", some "mem006"]) :=
  ⟨fun store data now h => enrich_id_of_none store data now h,
   fun existing h => newMemoryId_no_collision existing h,
   newMemoryId_fresh, by decide⟩

/-- C5 witness: the generation rule evaluated concretely — appending to the
five-record store yields mem006, and the empty store yields mem001. -/
theorem c5_witness :
    (enrichMemory store5 blankMem "t").id = some "mem006" ∧
    newMemoryId [] = "mem001" := by
  have h := c5_id_assignment
  constructor
  · rw [h.1 store5 blankMem "t" rfl]
    decide
  · rw [h.2.1 [] (by decide)]
    decide

/-- C6: `retrieve_relevant_memories` returns at most `limit` records, returns
the empty list whenever the store is empty or nothing scores above zero, and
its candidates are ordered by descending scaled relevance (the result being
the memory components of the first `limit` sorted candidates). -/
theorem c6_retrieve_bounds (store : MemoryStore) (q : String) (limit : Nat) :
    (retrieve_relevant_memories store q limit).length ≤ limit ∧
    (store.memories = [] → retrieve_relevant_memories store q limit = []) ∧
    ((∀ m ∈ store.memories, rawScore q m = 0) →
      retrieve_relevant_memories store q limit = []) ∧
    (((sortedCandidates q store.memories).take limit).Pairwise
      (fun a b => b.2 ≤ a.2)) ∧
    (store.memories ≠ [] → retrieve_relevant_memories store q limit
      = ((sortedCandidates q store.memories).take limit).map Prod.fst) := by
  refine ⟨?_, ?_, ?_, ?_, retrieve_eq_map_take store q limit⟩
  · rw [retrieve_relevant_memories]
    split
    · simp
    · rw [List.length_map, List.length_take]
      exact min_le_left _ _
  · intro h
    simp [retrieve_relevant_memories, h]
  · intro hz
    rw [retrieve_relevant_memories]
    split
    · rfl
    · rw [sortedCandidates, scoredMemories_eq_nil q store.memories hz,
        List.mergeSort_nil, List.take_nil, List.map_nil]
  · exact List.Pairwise.sublist (List.take_sublist _ _)
      (sortedCandidates_pairwise q store.memories)

/-- C6 witness: the bounds evaluated concretely — the empty store and a
nothing-matches query both return `[]`, and the length bound holds. -/
theorem c6_witness :
    retrieve_relevant_memories ⟨[], none⟩ "anything" 3 = [] ∧
    (retrieve_relevant_memories ⟨[], none⟩ "anything" 3).length ≤ 3 ∧
    retrieve_relevant_memories musingsStore "zzz" 3 = [] :=
  ⟨(c6_retrieve_bounds ⟨[], none⟩ "anything" 3).2.1 rfl,
   (c6_retrieve_bounds ⟨[], none⟩ "anything" 3).1,
   (c6_retrieve_bounds musingsStore "zzz" 3).2.2.1 (by decide)⟩

/-- C7 counterexample: for the worked example the raw score is not 8 and the
scaled score is not 64/5 = 12.8 — the spec's arithmetic missed that "ai" is
a substring of the entity "airth" (+2). -/
theorem c7_counterexample :
    rawScore "AI consciousness" musingsMem ≠ 8 ∧
    scaledScore "AI consciousness" musingsMem ≠ 64 / 5 := by
  have h10 : rawScore "AI consciousness" musingsMem = 10 := by decide
  have h16 : scaledScore "AI consciousness" musingsMem = 16 := by
    rw [scaledScore, h10, show getPriority musingsMem = 8 from rfl]
    norm_num
  constructor
  · rw [h10]; omega
  · rw [h16]; norm_num

/-- C7 (amended): the raw relevance score of the worked example is 10 —
title 2×3, content +2, and entity +2 because "ai" occurs inside "airth" —
the scaled score is 10 × 8/5 = 16, and the record is returned in the
top-3. -/
theorem c7_amended :
    rawScore "AI consciousness" musingsMem = 10 ∧
    pyIn "ai" (pyLower "Airth") = true ∧
    scaledScore "AI consciousness" musingsMem = 16 ∧
    retrieve_relevant_memories musingsStore "AI consciousness" 3
      = [musingsMem] := by
  have h10 : rawScore "AI consciousness" musingsMem = 10 := by decide
  refine ⟨h10, by decide, ?_, ?_⟩
  · rw [scaledScore, h10, show getPriority musingsMem = 8 from rfl]
    norm_num
  · have h1 : scoredMemories "AI consciousness" [musingsMem]
        = [(musingsMem, scaledScore "AI consciousness" musingsMem)] := by
      rw [scoredMemories]
      simp only [List.filterMap_cons, List.filterMap_nil]
      rw [if_pos (by decide : 0 < rawScore "AI consciousness" musingsMem)]
    rw [retrieve_relevant_memories, if_neg (by decide), sortedCandidates,
      show musingsStore.memories = [musingsMem] from rfl, h1,
      List.mergeSort_singleton]
    rfl

/-- C8 counterexample: inserting a record that CARRIES the explicit id
mem001 into a store whose single record already has id mem001 yields a store
with duplicate ids — the uniqueness invariant is not preserved for
caller-supplied ids. -/
theorem c8_counterexample :
    ((⟨[mkMem "mem001"], none⟩ : MemoryStore).memories.map
      (fun m => m.id.getD "")).Nodup ∧
    (mkMem "mem001").id = some "mem001" ∧
    ¬ (((add_new_memory ⟨[mkMem "mem001"], none⟩ (mkMem "mem001") "t"
          true).2.memories.map (fun m => m.id.getD "")).Nodup) :=
  ⟨by decide, rfl, by decide⟩

/-- C8 (amended): id uniqueness is an invariant for inserts WITHOUT a
caller-supplied id — the generated id is always fresh — and in every insert
the existing records are left unchanged (no id is reassigned or mutated);
a record inserted with an explicit duplicate id, however, is appended
unchecked (see the counterexample). -/
theorem c8_uniqueness (store : MemoryStore) (data : Memory) (now : String)
    (saveOk : Bool) (hid : data.id = none)
    (hnd : (store.memories.map (fun m => m.id.getD "")).Nodup) :
    ((add_new_memory store data now saveOk).2.memories.map
      (fun m => m.id.getD "")).Nodup ∧
    (add_new_memory store data now saveOk).2.memories.take
      store.memories.length = store.memories :=
  ⟨add_nodup_of_none store data now saveOk hid hnd,
   add_preserves_old store data now saveOk⟩

/-- C8 witness: uniqueness preserved concretely on the five-record store. -/
theorem c8_witness :
    ((add_new_memory store5 blankMem "t" true).2.memories.map
      (fun m => m.id.getD "")).Nodup ∧
    (add_new_memory store5 blankMem "t" true).2.memories.take 5
      = store5.memories := by
  have h := c8_uniqueness store5 blankMem "t" true rfl (by decide)
  exact ⟨h.1, h.2⟩

/-- C9 counterexample: when every posting attempt fails, the publishing loop
of `run_daily_news_automation` calls `create_news_commentary_post` three
times — publishing IS retried, contradicting "attempted at most once". -/
theorem c9_counterexample :
    (publishLoop (fun _ => false)).2 = 3 ∧
    ¬ ((publishLoop (fun _ => false)).2 ≤ 1) :=
  ⟨rfl, by decide⟩

/-- C9 (amended): BOTH the news-fetch loop and the publishing loop use the
same bounded retry pattern: at most MAX_RETRIES = 3 calls, stopping at the
first success; a first-attempt success publishes exactly once, and when all
attempts fail the post is attempted exactly MAX_RETRIES times. -/
theorem c9_bounded_retries (pOut : Nat → Bool) (fOut : Nat → List Article) :
    (publishLoop pOut).2 ≤ MAX_RETRIES ∧
    (fetch_articles_with_retry fOut).2 ≤ MAX_RETRIES ∧
    (pOut 0 = true → publishLoop pOut = (true, 1)) ∧
    ((∀ i, i < MAX_RETRIES → pOut i = false) →
      publishLoop pOut = (false, MAX_RETRIES)) := by
  refine ⟨?_, ?_, publishLoop_first_success pOut, publishLoop_all_fail pOut⟩
  · have h := postGo_calls_le pOut MAX_RETRIES 0
    show (postGo pOut 0 MAX_RETRIES).2 ≤ MAX_RETRIES
    omega
  · have h := fetchGo_calls_le fOut MAX_RETRIES 0
    show (fetchGo fOut 0 MAX_RETRIES).2 ≤ MAX_RETRIES
    omega

/-- C9 witness: a first-attempt success publishes exactly once, and the
fetch loop respects the bound. -/
theorem c9_witness :
    publishLoop (fun _ => true) = (true, 1) ∧
    (fetch_articles_with_retry (fun _ => ([] : List Article))).2
      ≤ MAX_RETRIES :=
  ⟨(c9_bounded_retries (fun _ => true) (fun _ => [])).2.2.1 rfl,
   (c9_bounded_retries (fun _ => true) (fun _ => [])).2.1⟩

/-- C10: for every non-empty input list the selection function returns some
article (never `none`); when at least one article has both title and
description the sorted scored-candidate list is non-empty — so the terminal
fallback after the sort is unreachable — and the returned article is drawn
from the valid subset. -/
theorem c10_selection_total (articles : List Article) (geo : Option String)
    (h : articles ≠ []) :
    (∃ a, generate_seo_optimized_news_content articles geo = some a) ∧
    (articles.filter validArticle ≠ [] →
      sortedScoredArticles articles geo ≠ [] ∧
      ∀ a, generate_seo_optimized_news_content articles geo = some a →
        a ∈ articles.filter validArticle) :=
  ⟨generate_isSome articles geo h,
   fun hv => ⟨sortedScoredArticles_ne_nil articles geo hv,
     fun a ha => generate_eq_of_valid articles geo hv a ha⟩⟩

/-- C10 witness: totality and the non-empty scored list at a concrete
one-valid-article input. -/
theorem c10_witness :
    (∃ a, generate_seo_optimized_news_content [goodArticle] none = some a) ∧
    sortedScoredArticles [goodArticle] none ≠ [] := by
  have h := c10_selection_total [goodArticle] none (by decide)
  exact ⟨h.1, (h.2 (by decide)).1⟩
